import Mathlib

/-!
# Verification of the quincho reservation system's conflict-resolution core

Shallow embedding of the availability / conflict-resolution subsystem of the
quincho reservation app: the PostgreSQL exclusion constraint and block-cascade
trigger (supabase/migrations), the client-side pre-check and mutation helpers
(`AdminDashboard.tsx`, `useReservationMutations`, `useDateTimeUtils`), the
confirmation page and the login profile lookup.

Times of day are modelled as minutes (`Nat`); the source stores `HH:MM` strings
whose lexicographic order coincides with the numeric order.  Dates are opaque
day indices (`Nat`).  Row ids and tokens are `Nat` stand-ins for UUIDs.
-/

namespace Quincho

/-- Reservation lifecycle status: enum `reservation_status` from
`20251203010000_safe_improvements.sql`. -/
inductive RStatus where
  | pending
  | approved
  | rejected
  | cancelled
deriving DecidableEq, Repr

/-- A row of `public.reservations` (columns used by the claims). -/
structure Reservation where
  id : Nat
  responsable : String
  email : String
  motivo : String
  fecha : Nat
  inicio : Nat
  fin : Nat
  personas : Nat
  status : RStatus
  adminNotes : Option String
  confirmed : Bool
  confirmationToken : Nat
  tokenExpiresAt : Nat
  updatedBy : Option Nat
deriving DecidableEq, Repr

/-- A row of `public.blocked_dates` (columns used by the cascade trigger). -/
structure BlockedDate where
  fecha : Nat
  startTime : Option Nat
  endTime : Option Nat
  motivo : Option String
  createdBy : Option Nat
deriving DecidableEq, Repr

/-- A row of `public.cancellations`
(`20251204000000_add_cancellations_table.sql`). -/
structure CancellationRow where
  reservationId : Nat
  cancelledBy : Option Nat
  reason : Option String
  previousStatus : RStatus
  reservationSnapshot : Reservation
deriving DecidableEq, Repr

/-- Database state: the three tables the claims are about. -/
structure DB where
  reservations : List Reservation
  cancellations : List CancellationRow
  blockedDates : List BlockedDate
deriving DecidableEq, Repr

/-- A row satisfies the `WHERE (status NOT IN ('cancelled', 'rejected'))`
predicate of the exclusion constraint (the "active" rows of the spec). -/
def isActive (r : Reservation) : Bool :=
  decide (r.status ≠ RStatus.cancelled ∧ r.status ≠ RStatus.rejected)

/-- Overlap of the half-open ranges `[s1, e1)` and `[s2, e2)` — the `&&`
operator on `tsrange(fecha + inicio, fecha + fin)` built by
`reservation_time_range`; an empty range overlaps nothing. -/
def rangesOverlap (s1 e1 s2 e2 : Nat) : Bool :=
  decide (max s1 s2 < min e1 e2)

/-- Two reservation rows collide under `reservations_no_overlap_excl`
(`20251204170000_handle_edge_cases.sql` lines 120-132): equal `fecha`, both in
the constraint's `WHERE` scope, and `&&`-overlapping time ranges. -/
def conflictsWith (a b : Reservation) : Bool :=
  decide (a.fecha = b.fecha) && isActive a && isActive b &&
    rangesOverlap a.inicio a.fin b.inicio b.fin

/-- Insert guarded by the exclusion constraint: the row is admitted only when
no existing row collides with it; otherwise the insert is rejected. -/
def exclInsert (table : List Reservation) (r : Reservation) :
    Option (List Reservation) :=
  if table.any (fun x => conflictsWith x r) then none else some (r :: table)

/-- Update guarded by the exclusion constraint: replacing the row with id
`r'.id` by `r'` is admitted only when `r'` collides with no other row. -/
def exclUpdateRow (table : List Reservation) (r' : Reservation) :
    Option (List Reservation) :=
  if table.any (fun x => decide (x.id ≠ r'.id) && conflictsWith x r') then none
  else some (table.map (fun x => if x.id = r'.id then r' else x))

/-- The no-overlap invariant: no two distinct rows of the table collide. -/
def NoOverlapInv (table : List Reservation) : Prop :=
  ∀ a ∈ table, ∀ b ∈ table, a.id ≠ b.id → conflictsWith a b = false

instance (table : List Reservation) : Decidable (NoOverlapInv table) := by
  unfold NoOverlapInv; infer_instance

/-! ## Block-cascade trigger (`cancel_reservations_in_blocked_range`) -/

/-- The trigger's time condition on an affected reservation
(`20251204170000_handle_edge_cases.sql` lines 171-186): a full-day block
(both bounds NULL) matches every row; a bounded block matches when
`(inicio >= start AND inicio < end) OR (fin > start AND fin <= end) OR
(inicio <= start AND fin >= end)`; a half-specified block matches nothing. -/
def trigTimeCond (b : BlockedDate) (r : Reservation) : Bool :=
  match b.startTime, b.endTime with
  | none, none => true
  | some bs, some be =>
      decide ((bs ≤ r.inicio ∧ r.inicio < be) ∨ (bs < r.fin ∧ r.fin ≤ be) ∨
        (r.inicio ≤ bs ∧ be ≤ r.fin))
  | _, _ => false

/-- Row selected by the trigger's cursor: same `fecha`, status not in
{cancelled, rejected}, and the time condition holds. -/
def affectedByBlock (b : BlockedDate) (r : Reservation) : Bool :=
  decide (r.fecha = b.fecha) && isActive r && trigTimeCond b r

/-- The trigger's cancellation reason:
`COALESCE('Fechas bloqueadas por administración: ' || NEW.motivo,
'Fechas bloqueadas por administración')` — SQL `||` is NULL-absorbing. -/
def cancelReason (b : BlockedDate) : String :=
  match b.motivo with
  | some m => "Fechas bloqueadas por administración: " ++ m
  | none => "Fechas bloqueadas por administración"

/-- The trigger's per-row UPDATE: status to `cancelled`, the reason appended to
`admin_notes` after a blank line (`COALESCE(admin_notes || E'\n\n', '')`),
`updated_by` set to the block's `created_by`. -/
def applyBlockCancel (b : BlockedDate) (r : Reservation) : Reservation :=
  { r with
    status := RStatus.cancelled
    adminNotes := some ((match r.adminNotes with
      | some n => n ++ "\n\n"
      | none => "") ++ cancelReason b)
    updatedBy := b.createdBy }

/-- Inserting a `blocked_dates` row and the `AFTER INSERT` trigger it fires:
every affected reservation is cancelled in place; no other table is written
(the trigger sends best-effort email but never touches `cancellations`). -/
def insertBlockedDate (db : DB) (b : BlockedDate) : DB :=
  { db with
    blockedDates := b :: db.blockedDates
    reservations := db.reservations.map
      (fun r => if affectedByBlock b r then applyBlockCancel b r else r) }

/-! ## Client-side time utilities (`useDateTimeUtils`) -/

/-- `doTimeRangesOverlap` from `useDateTimeUtils`:
`start1 < end2 && end1 > start2` (HH:MM strings compared lexicographically,
here minutes compared numerically). -/
def doTimeRangesOverlap (start1 end1 start2 end2 : Nat) : Bool :=
  decide (start1 < end2 ∧ start2 < end1)

/-! ## Client-side availability pre-check (`checkAvailability`) -/

/-- The inline overlap test of `checkAvailability` in `AdminDashboard.tsx`
(lines 890-894): `(start >= rs && start < re) || (end > rs && end <= re) ||
(start <= rs && end >= re)`. -/
def checkAvailOverlap (startT endT rs re : Nat) : Bool :=
  decide ((rs ≤ startT ∧ startT < re) ∨ (rs < endT ∧ endT ≤ re) ∨
    (startT ≤ rs ∧ re ≤ endT))

/-- `checkAvailability(date, startTime, endTime, excludeId?)` from
`AdminDashboard.tsx` lines 867-904: fetch the rows on the date whose status is
not `cancelled` (the query filters nothing else), drop the excluded id, and
report available when none of them overlaps the proposal. -/
def checkAvailability (table : List Reservation) (date startT endT : Nat)
    (excludeId : Option Nat) : Bool :=
  let fetched := table.filter
    (fun r => decide (r.status ≠ RStatus.cancelled) && decide (r.fecha = date))
  let relevant := match excludeId with
    | some i => fetched.filter (fun (r : Reservation) => decide (r.id ≠ i))
    | none => fetched
  !(relevant.any (fun r => checkAvailOverlap startT endT r.inicio r.fin))

/-! ## Input sanitisation (`sanitizeInput` in `AdminDashboard.tsx`) -/

/-- A JavaScript `\w` word character: letter, digit or underscore. -/
def isWordChar (c : Char) : Bool := c.isAlpha || c.isDigit || c == '_'

/-- JS `String.replace(pat, '')` for a literal pattern: delete every
(non-overlapping, left-to-right) occurrence of `pat`.  Fuel-indexed scan;
fuel = length of the scanned list suffices. -/
def removeAllSub : Nat → List Char → List Char → List Char
  | 0, _, s => s
  | _, _, [] => []
  | fuel + 1, pat, c :: rest =>
      if pat.isPrefixOf (c :: rest) then
        removeAllSub fuel pat ((c :: rest).drop pat.length)
      else c :: removeAllSub fuel pat rest

/-- Split a character list into maximal runs of word / non-word characters
(fuel-indexed recursion; fuel = length suffices). -/
def splitRunsAux : Nat → List Char → List (List Char)
  | 0, _ => []
  | _, [] => []
  | fuel + 1, c :: rest =>
      ((c :: rest).takeWhile (fun x => isWordChar x == isWordChar c)) ::
        splitRunsAux fuel
          ((c :: rest).dropWhile (fun x => isWordChar x == isWordChar c))

/-- JS `String.replace(/\bkw\b/gi, '')`: delete every maximal word run whose
lowercasing equals the (lowercase) keyword. -/
def removeWordCI (kw : List Char) (s : List Char) : List Char :=
  ((splitRunsAux s.length s).filter
    (fun run => !(isWordChar (run.headD ' ') &&
      run.map Char.toLower == kw))).flatten

/-- JS `String.trim()`: drop leading and trailing whitespace. -/
def trimChars (s : List Char) : List Char :=
  ((s.dropWhile Char.isWhitespace).reverse.dropWhile Char.isWhitespace).reverse

/-- `sanitizeInput` from `AdminDashboard.tsx` lines 394-411: strip quotes and
semicolons (char codes 39, 34, 59), SQL comment markers, dangerous keywords as
whole words (case-insensitive), then trim.  `null`/`undefined` map to `""`. -/
def sanitizeInput (input : Option String) : String :=
  match input with
  | none => ""
  | some s =>
      let s1 := s.toList.filter
        (fun c => !decide (c.toNat = 39 ∨ c.toNat = 34 ∨ c.toNat = 59))
      let s2 := removeAllSub s1.length "--".toList s1
      let s3 := removeAllSub s2.length "/*".toList s2
      let s4 := removeAllSub s3.length "*/".toList s3
      let s5 := removeWordCI "drop".toList s4
      let s6 := removeWordCI "delete".toList s5
      let s7 := removeWordCI "update".toList s6
      let s8 := removeWordCI "insert".toList s7
      let s9 := removeWordCI "select".toList s8
      (trimChars s9).asString

/-! ## Soft cancellation (`deleteReservation` in `AdminDashboard.tsx`) -/

/-- The `admin_notes` value written by `deleteReservation` (line 573):
`reason ? 'Motivo: ' + sanitizeInput(reason) : 'Motivo: No especificado'` —
the empty string is falsy in JS. -/
def motivoNote (reason : Option String) : String :=
  match reason with
  | some r => if r = "" then "Motivo: No especificado"
      else "Motivo: " ++ sanitizeInput (some r)
  | none => "Motivo: No especificado"

/-- The audit row's `reason` field (line 560):
`sanitizeInput(reason) || null`. -/
def auditReason (reason : Option String) : Option String :=
  let s := sanitizeInput reason
  if s = "" then none else some s

/-- `deleteReservation(id, reason?)` from `AdminDashboard.tsx` lines 524-607.
`adminId` is the result of the `auth.getUser()` lookup (`null` when it fails);
`auditOk` is whether the best-effort `cancellations` insert succeeds (its
failure is caught and logged, the flow continues).  The reservation row is
never deleted: its status is set to `cancelled`, `admin_notes` is *replaced*
by `motivoNote reason`, and `updated_by` is set only when `adminId` is
present.  `previous_status` is the row's status (`NOT NULL` in the schema, so
the JS `|| (approved ? 'approved' : 'pending')` fallback is dead). -/
def deleteReservation (db : DB) (id : Option Nat) (reason : Option String)
    (adminId : Option Nat) (auditOk : Bool) : Except String DB :=
  match id with
  | none => Except.error "No reservation ID provided for deletion"
  | some rid =>
      match db.reservations.find? (fun r => decide (r.id = rid)) with
      | none => Except.error "getError"
      | some r =>
          let cancellations' :=
            if auditOk then
              db.cancellations ++
                [{ reservationId := rid
                   cancelledBy := adminId
                   reason := auditReason reason
                   previousStatus := r.status
                   reservationSnapshot := r }]
            else db.cancellations
          let reservations' := db.reservations.map (fun x =>
            if x.id = rid then
              { x with
                status := RStatus.cancelled
                adminNotes := some (motivoNote reason)
                updatedBy := match adminId with
                  | some a => some a
                  | none => x.updatedBy }
            else x)
          Except.ok { db with
            reservations := reservations'
            cancellations := cancellations' }

/-! ## Client submission flow (`useReservationMutations.addReservation`) -/

/-- A PostgREST error as the client sees it: a stable code and a message. -/
structure PgError where
  code : String
  message : String
deriving DecidableEq, Repr

/-- `error.message?.includes(pat)`: substring containment, as "some suffix of
`s` starts with `pat`". -/
def containsSubstr (s pat : String) : Bool :=
  (List.range (s.length + 1)).any
    (fun i => pat.toList.isPrefixOf (s.toList.drop i))

/-- The overlap-violation test of `addReservation` (part_008 line 43):
`error.code === '23P01' || error.message?.includes('reservations_no_overlap_excl')`. -/
def isOverlapViolation (e : PgError) : Bool :=
  e.code == "23P01" || containsSubstr e.message "reservations_no_overlap_excl"

/-- Result of the single insert attempt made by `addReservation`. -/
inductive InsertOutcome where
  | inserted (row : Reservation)
  | failed (e : PgError)
deriving DecidableEq, Repr

/-- User-facing outcome of `addReservation`. -/
inductive AddResult where
  | created (r : Reservation)
  | slotTakenMsg
  | genericErrorMsg
deriving DecidableEq, Repr

/-- The toast shown for the slot-taken outcome (part_008 line 108). -/
def slotTakenToast : String :=
  "Este horario ya fue reservado por otra persona. Por favor, elige otro horario."

/-- The toast shown for any other insert failure (part_008 line 112). -/
def genericErrorToast : String := "Error al crear la reserva"

/-- The toast `addReservation` shows for each outcome. -/
def toastFor : AddResult → Option String
  | AddResult.created _ => none
  | AddResult.slotTakenMsg => some slotTakenToast
  | AddResult.genericErrorMsg => some genericErrorToast

/-- How `addReservation` maps the single insert attempt to a user-facing
outcome (part_008 lines 41-47 and 105-115): an overlap-violation error throws
`SLOT_TAKEN`, caught and shown as the slot-taken toast; any other error is
shown as the generic creation-error toast. -/
def addReservationOutcome : InsertOutcome → AddResult
  | InsertOutcome.inserted r => AddResult.created r
  | InsertOutcome.failed e =>
      if isOverlapViolation e then AddResult.slotTakenMsg
      else AddResult.genericErrorMsg

/-- `token_expires_at` written at creation (part_008 line 28):
`Date.now() + 24 * 60 * 60 * 1000` (milliseconds). -/
def tokenExpiry (now : Nat) : Nat := now + 24 * 60 * 60 * 1000

/-- The exclusion constraint's rejection signal as surfaced by PostgREST. -/
def exclViolationError : PgError :=
  { code := "23P01"
    message :=
      "conflicting key value violates exclusion constraint \x22reservations_no_overlap_excl\x22" }

/-- The database's side of the insert: admit the row unless the exclusion
constraint rejects it, in which case the table is unchanged and the 23P01
error is returned. -/
def dbTryInsert (table : List Reservation) (r : Reservation) :
    List Reservation × InsertOutcome :=
  match exclInsert table r with
  | some t => (t, InsertOutcome.inserted r)
  | none => (table, InsertOutcome.failed exclViolationError)

/-- The whole `addReservation` flow over the table: one insert attempt, its
outcome mapped by `addReservationOutcome`; a failed attempt leaves the table
untouched and is not retried. -/
def addReservation (table : List Reservation) (r : Reservation) :
    List Reservation × AddResult :=
  let (t, out) := dbTryInsert table r
  (t, addReservationOutcome out)

/-! ## Admin slot blocking (`blockTimeSlot` in `AdminDashboard.tsx`) -/

/-- The query filter of `blockTimeSlot` (lines 803-808):
`.not('status','eq','cancelled').eq('fecha',date)
.or('inicio.gte.' + startTime + ',fin.lte.' + endTime)`. -/
def blockQueryMatches (date startT endT : Nat) (r : Reservation) : Bool :=
  decide (r.status ≠ RStatus.cancelled) && decide (r.fecha = date) &&
    decide (startT ≤ r.inicio ∨ r.fin ≤ endT)

/-- The cancellation reason `blockTimeSlot` passes to `deleteReservation`
(line 816). -/
def blockCancellationReason (reason : String) : String :=
  "La reserva fue cancelada porque el administrador bloqueó este horario: " ++
    reason

/-- The cancellation loop of `blockTimeSlot` (lines 815-827): every queried
row whose `responsable` is not `'Admin'` is soft-cancelled via
`deleteReservation`; a failing call is caught and the loop continues. -/
def blockCancelPhase (db : DB) (date startT endT : Nat) (reason : String)
    (adminId : Option Nat) (auditOk : Bool) : DB :=
  let targets := db.reservations.filter (blockQueryMatches date startT endT)
  targets.foldl (fun acc r =>
    if r.responsable == "Admin" then acc
    else
      match deleteReservation acc (some r.id)
          (some (blockCancellationReason reason)) adminId auditOk with
      | Except.ok db2 => db2
      | Except.error _ => acc) db

/-- The admin-placeholder row `blockTimeSlot` tries to insert (lines 829-838):
`responsable: 'Admin'`, `email: 'admin@system.com'`,
`motivo: 'BLOQUEADO: ' + reason`, `personas: 0`; a fresh id and token are
supplied by the database. -/
def blockedReservation (date startT endT : Nat) (reason : String)
    (freshId freshToken : Nat) : Reservation :=
  { id := freshId
    responsable := "Admin"
    email := "admin@system.com"
    motivo := "BLOQUEADO: " ++ reason
    fecha := date
    inicio := startT
    fin := endT
    personas := 0
    status := RStatus.pending
    adminNotes := none
    confirmed := false
    confirmationToken := freshToken
    tokenExpiresAt := 0
    updatedBy := none }

/-- `reservations_time_order_check` from
`20251203010000_safe_improvements.sql` lines 88-96: `CHECK (fin > inicio)`. -/
def timeOrderCheck (r : Reservation) : Bool := decide (r.inicio < r.fin)

/-- `reservations_personas_positive_check` from
`20251203010000_safe_improvements.sql` lines 98-106: `CHECK (personas > 0)`. -/
def personasPositiveCheck (r : Reservation) : Bool := decide (0 < r.personas)

/-- Under the migrated schema an insert must pass both check constraints. -/
def passesCheckConstraints (r : Reservation) : Bool :=
  timeOrderCheck r && personasPositiveCheck r

/-- The placeholder insert at the end of `blockTimeSlot` (lines 840-852),
run against the migrated schema: the row is admitted only if it satisfies the
check constraints and the exclusion constraint; otherwise `insertError` is
thrown by `blockTimeSlot`. -/
def blockPlaceholderInsert (table : List Reservation) (r : Reservation) :
    Except PgError (List Reservation) :=
  if passesCheckConstraints r then
    match exclInsert table r with
    | some t => Except.ok t
    | none => Except.error exclViolationError
  else Except.error { code := "23514", message := "check constraint violated" }

/-- The whole `blockTimeSlot(date, startTime, endTime, reason)` flow: cancel
the queried non-admin rows, then attempt the placeholder insert; on insert
failure the error is thrown, but the cancellations already performed stand
(the client runs no transaction). -/
def blockTimeSlot (db : DB) (date startT endT : Nat) (reason : String)
    (adminId : Option Nat) (auditOk : Bool) (freshId freshToken : Nat) :
    DB × Except PgError Reservation :=
  let db1 := blockCancelPhase db date startT endT reason adminId auditOk
  let row := blockedReservation date startT endT reason freshId freshToken
  match blockPlaceholderInsert db1.reservations row with
  | Except.ok t => ({ db1 with reservations := t }, Except.ok row)
  | Except.error e => (db1, Except.error e)

/-! ## Confirmation flow (`ConfirmReservationPage.tsx`) -/

/-- Outcome reported by the confirmation page. -/
inductive ConfirmStatus where
  | success
  | expired
  | invalid
deriving DecidableEq, Repr

/-- `confirmReservation` from `ConfirmReservationPage.tsx` lines 16-59: update
`confirmed = true` on the rows with this `confirmation_token` whose
`token_expires_at` is strictly in the future; if none matched, a fallback
lookup distinguishes an existing (hence expired) token from an unknown one.
A missing token reports the error outcome at once. -/
def confirmReservation (table : List Reservation) (token : Option Nat)
    (now : Nat) : List Reservation × ConfirmStatus :=
  match token with
  | none => (table, ConfirmStatus.invalid)
  | some t =>
      let matched := table.filter (fun r =>
        decide (r.confirmationToken = t) && decide (now < r.tokenExpiresAt))
      if matched.isEmpty then
        if table.any (fun r => decide (r.confirmationToken = t)) then
          (table, ConfirmStatus.expired)
        else (table, ConfirmStatus.invalid)
      else
        (table.map (fun r =>
          if decide (r.confirmationToken = t) && decide (now < r.tokenExpiresAt)
          then { r with confirmed := true } else r),
         ConfirmStatus.success)

/-! ## Login profile lookup (`fetchUserProfile` in `context/auth/utils.ts`) -/

/-- The timeout used by the profile lookup (utils.ts line 10): 3000 ms. -/
def profileFetchTimeoutMs : Nat := 3000

/-- How the raced profiles query can resolve. -/
inductive ProfileQueryResult where
  | timeout
  | queryError
  | row (isAdminFlag : Bool)
  | noRow
deriving DecidableEq, Repr

/-- `fetchUserProfile` from `context/auth/utils.ts` lines 6-68.  The raced
query result is `q`; when no profile row exists the function tries to create
one (`userEmail` is the `auth.getUser()` email, `getUserFails` whether that
lookup throws, `insertOk` whether the profile insert succeeds).  A timeout or
any error returns `false` — the safe non-admin default. -/
def fetchUserProfile (q : ProfileQueryResult) (userEmail : Option String)
    (getUserFails : Bool) (insertOk : Bool) : Bool :=
  match q with
  | ProfileQueryResult.timeout => false
  | ProfileQueryResult.queryError => false
  | ProfileQueryResult.row b => b
  | ProfileQueryResult.noRow =>
      if getUserFails then false
      else
        let isAdmin := match userEmail with
          | some e => e.endsWith "@fiuna.edu.py"
          | none => false
        if insertOk then isAdmin else false

/-- The exclusion-constraint collision test is symmetric. -/
theorem conflictsWith_symm (a b : Reservation) :
    conflictsWith a b = conflictsWith b a := by
  simp only [conflictsWith, rangesOverlap]
  by_cases hf : a.fecha = b.fecha
  · simp [hf, Nat.max_comm, Nat.min_comm, Bool.and_comm, Bool.and_assoc,
      Bool.and_left_comm]
  · have hf' : ¬ b.fecha = a.fecha := fun h => hf h.symm
    simp [hf, hf']

/-- A table's rows all fail the collision test against a row the
exclusion-constraint insert admitted. -/
theorem exclInsert_some_no_conflict {table : List Reservation} {r : Reservation}
    {t' : List Reservation} (h : exclInsert table r = some t') :
    (∀ x ∈ table, conflictsWith x r = false) ∧ t' = r :: table := by
  unfold exclInsert at h
  by_cases hc : table.any (fun x => conflictsWith x r) = true
  · rw [if_pos hc] at h; cases h
  · rw [if_neg hc] at h
    refine ⟨?_, (Option.some.injEq _ _).mp h |>.symm⟩
    intro x hx
    by_contra hfx
    exact hc (List.any_eq_true.mpr ⟨x, hx, by
      cases hcc : conflictsWith x r with
      | true => rfl
      | false => exact absurd hcc hfx⟩)

/-- The other rows all fail the collision test against a row the
exclusion-constraint update admitted. -/
theorem exclUpdateRow_some_no_conflict {table : List Reservation}
    {r' : Reservation} {t' : List Reservation}
    (h : exclUpdateRow table r' = some t') :
    (∀ x ∈ table, x.id ≠ r'.id → conflictsWith x r' = false) ∧
      t' = table.map (fun x => if x.id = r'.id then r' else x) := by
  unfold exclUpdateRow at h
  by_cases hc :
      table.any (fun x => decide (x.id ≠ r'.id) && conflictsWith x r') = true
  · rw [if_pos hc] at h; cases h
  · rw [if_neg hc] at h
    refine ⟨?_, (Option.some.injEq _ _).mp h |>.symm⟩
    intro x hx hne
    by_contra hfx
    exact hc (List.any_eq_true.mpr ⟨x, hx, by
      cases hcc : conflictsWith x r' with
      | true => simp [hne]
      | false => exact absurd hcc hfx⟩)

/-- C1: for any two reservation rows on the same date whose status is not in
{cancelled, rejected}, their `[start, end)` intervals do not overlap — the
exclusion constraint `reservations_no_overlap_excl` rejects any insert or
update that would put a second active reservation on an interval intersecting
an existing active reservation's interval on that date, and an admitted insert
or update preserves the no-overlap invariant, so at most one active
reservation occupies any overlapping interval. -/
theorem C1_exclusion_constraint_no_overlap
    (table : List Reservation) (r r' : Reservation)
    (hinv : NoOverlapInv table) :
    ((∃ x ∈ table, conflictsWith x r = true) → exclInsert table r = none) ∧
    (∀ t', exclInsert table r = some t' → NoOverlapInv t') ∧
    ((∃ x ∈ table, x.id ≠ r'.id ∧ conflictsWith x r' = true) →
      exclUpdateRow table r' = none) ∧
    (∀ t', exclUpdateRow table r' = some t' → NoOverlapInv t') := by
  refine ⟨?_, ?_, ?_, ?_⟩
  · rintro ⟨x, hx, hcx⟩
    unfold exclInsert
    rw [if_pos (List.any_eq_true.mpr ⟨x, hx, hcx⟩)]
  · intro t' ht'
    obtain ⟨hnone, rfl⟩ := exclInsert_some_no_conflict ht'
    intro a ha b hb hne
    rcases List.mem_cons.mp ha with rfl | ha' <;>
      rcases List.mem_cons.mp hb with rfl | hb'
    · exact absurd rfl hne
    · rw [conflictsWith_symm]; exact hnone b hb'
    · exact hnone a ha'
    · exact hinv a ha' b hb' hne
  · rintro ⟨x, hx, hne, hcx⟩
    unfold exclUpdateRow
    rw [if_pos (List.any_eq_true.mpr ⟨x, hx, by simp [hne, hcx]⟩)]
  · intro t' ht'
    obtain ⟨hnone, rfl⟩ := exclUpdateRow_some_no_conflict ht'
    intro a ha b hb hne
    obtain ⟨xa, hxa, rfl⟩ := List.mem_map.mp ha
    obtain ⟨xb, hxb, rfl⟩ := List.mem_map.mp hb
    by_cases ha' : xa.id = r'.id <;> by_cases hb' : xb.id = r'.id
    · rw [if_pos ha', if_pos hb'] at hne ⊢
      exact absurd rfl hne
    · rw [if_pos ha'] at hne ⊢
      rw [if_neg hb'] at hne ⊢
      rw [conflictsWith_symm]
      exact hnone xb hxb (by simpa using hne.symm)
    · rw [if_neg ha'] at hne ⊢
      rw [if_pos hb'] at hne ⊢
      exact hnone xa hxa (by simpa using hne)
    · rw [if_neg ha'] at hne ⊢
      rw [if_neg hb'] at hne ⊢
      exact hinv xa hxa xb hxb hne

/-! ### Concrete rows used by the witnesses and counterexamples -/

/-- Fixture: a user reservation row with the given id, date, time interval
and status. -/
def mkRes (i d s e : Nat) (st : RStatus) : Reservation :=
  { id := i
    responsable := "Ana"
    email := "ana@example.com"
    motivo := "Cumpledata"
    fecha := d
    inicio := s
    fin := e
    personas := 10
    status := st
    adminNotes := none
    confirmed := false
    confirmationToken := 100 + i
    tokenExpiresAt := 0
    updatedBy := none }

/-- Fixture: pending reservation 10:00-11:00 on day 1. -/
def w1 : Reservation := mkRes 1 1 600 660 RStatus.pending

/-- Fixture: pending reservation 10:30-11:30 on day 1 (overlaps `w1`). -/
def w2 : Reservation := mkRes 2 1 630 690 RStatus.pending

/-- Fixture: pending reservation 12:00-13:00 on day 1 (disjoint from `w1`). -/
def w3 : Reservation := mkRes 3 1 720 780 RStatus.pending

/-- Fixture: `w3` moved onto `w1`'s interval (a conflicting update). -/
def w3bad : Reservation := { w3 with inicio := 630, fin := 690 }

/-- Fixture: `w3` moved to 11:40-12:40 (a harmless update). -/
def w3good : Reservation := { w3 with inicio := 700, fin := 760 }

theorem C1_exclusion_constraint_no_overlap_witness :
    exclInsert [w1] w2 = none ∧ NoOverlapInv [w3, w1] ∧
    exclUpdateRow [w1, w3] w3bad = none ∧ NoOverlapInv [w1, w3good] := by
  have h1 := C1_exclusion_constraint_no_overlap [w1] w2 w2 (by decide)
  have h2 := C1_exclusion_constraint_no_overlap [w1] w3 w3 (by decide)
  have h3 := C1_exclusion_constraint_no_overlap [w1, w3] w3 w3bad (by decide)
  have h4 := C1_exclusion_constraint_no_overlap [w1, w3] w3 w3good (by decide)
  refine ⟨h1.1 (by decide), h2.2.1 [w3, w1] (by decide),
    h3.2.2.1 (by decide), ?_⟩
  have := h4.2.2.2 ([w1, w3].map
    (fun x => if x.id = w3good.id then w3good else x)) (by decide)
  simpa using this

/-! ### C4: the client-side availability pre-check -/

/-- On non-empty intervals the three-case overlap test of `checkAvailability`
agrees with `doTimeRangesOverlap`'s `start1 < end2 && end1 > start2`. -/
theorem checkAvailOverlap_eq_doTimeRangesOverlap (s e rs re : Nat)
    (h1 : s < e) (h2 : rs < re) :
    checkAvailOverlap s e rs re = doTimeRangesOverlap s e rs re := by
  simp only [checkAvailOverlap, doTimeRangesOverlap, decide_eq_decide]
  omega

/-- C4 as stated is false: `checkAvailability` filters out only `cancelled`
rows, so a `rejected` reservation — not active under the spec's definition —
still makes the pre-check report the slot unavailable.  Here the only row on
the date is rejected, every interval is non-empty, yet the result is
`false`. -/
theorem C4_precheck_counterexample :
    checkAvailability [mkRes 9 1 630 690 RStatus.rejected] 1 600 660 none
        = false ∧
    (∀ r ∈ [mkRes 9 1 630 690 RStatus.rejected], isActive r = false) ∧
    (600 : Nat) < 660 ∧
    (∀ r ∈ [mkRes 9 1 630 690 RStatus.rejected], r.inicio < r.fin) := by
  decide

/-- C4 amended: `checkAvailability` returns available **iff** no reservation
on that date whose status is not `cancelled` (rejected rows also block, unlike
the spec's notion of active) overlaps the proposal under
`start1 < end2 AND end1 > start2`, assuming the fetch succeeds and all
intervals are non-empty. -/
theorem C4_precheck_availability_iff
    (table : List Reservation) (date startT endT : Nat)
    (hprop : startT < endT) (hrows : ∀ r ∈ table, r.inicio < r.fin) :
    (checkAvailability table date startT endT none = true ↔
      ∀ r ∈ table, r.status ≠ RStatus.cancelled → r.fecha = date →
        doTimeRangesOverlap startT endT r.inicio r.fin = false) := by
  simp only [checkAvailability, Bool.not_eq_true', List.any_eq_false,
    List.mem_filter, Bool.and_eq_true, decide_eq_true_eq, and_imp]
  constructor
  · intro h r hr hst hf
    rw [← checkAvailOverlap_eq_doTimeRangesOverlap _ _ _ _ hprop (hrows r hr)]
    simpa using h r hr hst hf
  · intro h r hr hst hf
    have := h r hr hst hf
    rw [← checkAvailOverlap_eq_doTimeRangesOverlap _ _ _ _ hprop (hrows r hr)]
      at this
    simpa using this

theorem C4_precheck_availability_iff_witness :
    checkAvailability [w1, mkRes 4 2 600 660 RStatus.pending] 1 700 760 none
      = true := by
  exact (C4_precheck_availability_iff
    [w1, mkRes 4 2 600 660 RStatus.pending] 1 700 760
    (by decide) (by decide)).mpr (by decide)

/-! ### C5: mapping of the exclusion-constraint violation to SLOT_TAKEN -/

/-- C5: an insert failure whose error carries code `23P01` or a message naming
`reservations_no_overlap_excl` is mapped by `addReservation` to the distinct
slot-taken outcome (with its own toast, different from the generic
creation-error toast), and a conflicting insert leaves the table unchanged —
the insert is not retried. -/
theorem C5_slot_taken_mapping (e : PgError) (table : List Reservation)
    (r : Reservation) :
    (addReservationOutcome (InsertOutcome.failed e) = AddResult.slotTakenMsg ↔
      (e.code = "23P01" ∨
        containsSubstr e.message "reservations_no_overlap_excl" = true)) ∧
    toastFor AddResult.slotTakenMsg ≠ toastFor AddResult.genericErrorMsg ∧
    ((∃ x ∈ table, conflictsWith x r = true) →
      addReservation table r = (table, AddResult.slotTakenMsg)) := by
  refine ⟨?_, by decide, ?_⟩
  · simp only [addReservationOutcome, isOverlapViolation]
    by_cases hc : (e.code == "23P01" ||
        containsSubstr e.message "reservations_no_overlap_excl") = true
    · rw [if_pos hc]
      simpa [Bool.or_eq_true, beq_iff_eq] using hc
    · rw [if_neg hc]
      constructor
      · intro h; cases h
      · intro h
        exact absurd (by simpa [Bool.or_eq_true, beq_iff_eq] using h) hc
  · rintro ⟨x, hx, hcx⟩
    have hnone : exclInsert table r = none := by
      unfold exclInsert
      rw [if_pos (List.any_eq_true.mpr ⟨x, hx, hcx⟩)]
    simp [addReservation, dbTryInsert, hnone, addReservationOutcome,
      isOverlapViolation, exclViolationError]

theorem C5_slot_taken_mapping_witness :
    addReservationOutcome (InsertOutcome.failed exclViolationError)
        = AddResult.slotTakenMsg ∧
    addReservation [w1] w2 = ([w1], AddResult.slotTakenMsg) := by
  have h := C5_slot_taken_mapping exclViolationError [w1] w2
  exact ⟨h.1.mpr (Or.inl rfl), h.2.2 ⟨w1, by decide, by decide⟩⟩

/-! ### C9: the login profile lookup fails open -/

/-- C9: `fetchUserProfile` treats a timeout of the profiles query (the race
uses a 3000 ms timer) and any query error as "not admin": it returns `false`
instead of propagating the failure, for every surrounding configuration. -/
theorem C9_profile_lookup_fails_open
    (userEmail : Option String) (getUserFails insertOk : Bool) :
    fetchUserProfile ProfileQueryResult.timeout userEmail getUserFails insertOk
        = false ∧
    fetchUserProfile ProfileQueryResult.queryError userEmail getUserFails
        insertOk = false ∧
    profileFetchTimeoutMs = 3000 :=
  ⟨rfl, rfl, rfl⟩

/-! ### C10: the admin block placeholder violates the personas check -/

/-- C10: the placeholder reservation built by `blockTimeSlot` always has
`personas = 0`, failing `reservations_personas_positive_check`; under the
migrated schema the placeholder insert is therefore always rejected and
`blockTimeSlot` always ends in a thrown insert error. -/
theorem C10_block_placeholder_always_rejected
    (db : DB) (date startT endT : Nat) (reason : String)
    (adminId : Option Nat) (auditOk : Bool) (freshId freshToken : Nat) :
    personasPositiveCheck
        (blockedReservation date startT endT reason freshId freshToken)
        = false ∧
    (blockTimeSlot db date startT endT reason adminId auditOk freshId
        freshToken).2 =
      Except.error { code := "23514", message := "check constraint violated" }
    := by
  constructor
  · rfl
  · simp [blockTimeSlot, blockPlaceholderInsert, passesCheckConstraints,
      personasPositiveCheck, blockedReservation]

/-! ### C2: the block-cascade trigger and the audit table -/

/-- Fixture: a block of 8:00-12:00 on day 1 with a reason and a creating
admin. -/
def b0 : BlockedDate :=
  { fecha := 1
    startTime := some 480
    endTime := some 720
    motivo := some "mantenimiento"
    createdBy := some 77 }

/-- Fixture: a database holding only the pending reservation `w1` (10:00-11:00
on day 1) and an empty audit table. -/
def db0 : DB := { reservations := [w1], cancellations := [], blockedDates := [] }

/-- C2 as stated is false: inserting a blocked range over one active
overlapping reservation cancels it (N = 1) but appends **zero** `cancellations`
audit rows, not one — the trigger never writes to the audit table. -/
theorem C2_cascade_audit_counterexample :
    ((insertBlockedDate db0 b0).reservations.filter
        (fun r => decide (r.status = RStatus.cancelled))).length = 1 ∧
    affectedByBlock b0 w1 = true ∧
    (insertBlockedDate db0 b0).cancellations.length = 0 := by
  decide

/-- C2 amended: inserting a BlockedDate cancels every reservation on that date
with status not in {cancelled, rejected} whose interval satisfies the
trigger's overlap condition (every such reservation when the block has no
sub-interval), appending the block reason to its admin notes; rows not
selected are left unchanged; but the cascade appends **no** `cancellations`
audit rows at all — notification is by best-effort email only. -/
theorem C2_cascade_completeness_amended (db : DB) (b : BlockedDate) :
    (insertBlockedDate db b).cancellations = db.cancellations ∧
    (insertBlockedDate db b).reservations.length = db.reservations.length ∧
    (∀ r ∈ db.reservations, affectedByBlock b r = true →
        applyBlockCancel b r ∈ (insertBlockedDate db b).reservations ∧
        (applyBlockCancel b r).status = RStatus.cancelled ∧
        (applyBlockCancel b r).adminNotes = some ((match r.adminNotes with
          | some n => n ++ "\n\n"
          | none => "") ++ cancelReason b)) ∧
    (∀ r ∈ db.reservations, affectedByBlock b r = false →
        r ∈ (insertBlockedDate db b).reservations) := by
  refine ⟨rfl, by simp [insertBlockedDate], ?_, ?_⟩
  · intro r hr haff
    refine ⟨?_, rfl, rfl⟩
    have := List.mem_map_of_mem
      (f := fun r => if affectedByBlock b r then applyBlockCancel b r else r) hr
    simpa [insertBlockedDate, haff] using this
  · intro r hr haff
    have := List.mem_map_of_mem
      (f := fun r => if affectedByBlock b r then applyBlockCancel b r else r) hr
    simpa [insertBlockedDate, haff] using this

theorem C2_cascade_completeness_amended_witness :
    (insertBlockedDate db0 b0).cancellations = [] ∧
    applyBlockCancel b0 w1 ∈ (insertBlockedDate db0 b0).reservations := by
  have h := C2_cascade_completeness_amended db0 b0
  exact ⟨h.1, (h.2.2.1 w1 (by decide) (by decide)).1⟩

/-! ### C3: the admin-owned placeholder exemption -/

/-- Fixture: an admin-owned placeholder reservation, 9:00-10:00 on day 1,
pending (active). -/
def wAdmin : Reservation :=
  { mkRes 5 1 540 600 RStatus.pending with
    responsable := "Admin"
    email := "admin@system.com"
    motivo := "BLOQUEADO: evento" }

/-- C3 as stated is false: the database trigger applies no `responsable`
exemption, so a blocking action through `blocked_dates` cancels the admin's
own placeholder reservation like any other overlapping active row. -/
theorem C3_trigger_cancels_admin_counterexample :
    wAdmin.responsable = "Admin" ∧
    (insertBlockedDate
        { reservations := [wAdmin], cancellations := [], blockedDates := [] }
        b0).reservations = [applyBlockCancel b0 wAdmin] ∧
    (applyBlockCancel b0 wAdmin).status = RStatus.cancelled := by
  decide

/-- A `deleteReservation` call aimed at a different id leaves a row in
place unchanged. -/
theorem deleteReservation_preserves_other
    {db : DB} {rid : Nat} {reason : Option String} {adminId : Option Nat}
    {auditOk : Bool} {r : Reservation} (hr : r ∈ db.reservations)
    (hne : r.id ≠ rid) {db' : DB}
    (h : deleteReservation db (some rid) reason adminId auditOk
      = Except.ok db') :
    r ∈ db'.reservations := by
  cases hfind : db.reservations.find? (fun x => decide (x.id = rid)) with
  | none => simp only [deleteReservation, hfind] at h; cases h
  | some x =>
      simp only [deleteReservation, hfind, Except.ok.injEq] at h
      subst h
      have := List.mem_map_of_mem
        (f := fun x => if x.id = rid then
          { x with
            status := RStatus.cancelled
            adminNotes := some (motivoNote reason)
            updatedBy := match adminId with
              | some a => some a
              | none => x.updatedBy }
          else x) hr
      simpa [hne] using this

/-- The cancellation loop of `blockTimeSlot` never touches a row whose id
differs from every non-admin target's id. -/
theorem blockCancel_foldl_preserves
    (reason : String) (adminId : Option Nat) (auditOk : Bool)
    (r : Reservation) :
    ∀ (ts : List Reservation) (acc : DB), r ∈ acc.reservations →
    (∀ t ∈ ts, t.responsable ≠ "Admin" → t.id ≠ r.id) →
    r ∈ (ts.foldl (fun acc t =>
      if t.responsable == "Admin" then acc
      else
        match deleteReservation acc (some t.id)
            (some (blockCancellationReason reason)) adminId auditOk with
        | Except.ok db2 => db2
        | Except.error _ => acc) acc).reservations := by
  intro ts
  induction ts with
  | nil => intro acc h _; simpa using h
  | cons t ts ih =>
      intro acc hmem hids
      rw [List.foldl_cons]
      refine ih _ ?_ (fun t' ht' => hids t' (List.mem_cons_of_mem _ ht'))
      by_cases ha : t.responsable == "Admin"
      · simpa [ha] using hmem
      · rw [if_neg ha]
        cases hdel : deleteReservation acc (some t.id)
            (some (blockCancellationReason reason)) adminId auditOk with
        | ok db2 =>
            refine deleteReservation_preserves_other hmem ?_ hdel
            have hta : t.responsable ≠ "Admin" := by
              simpa [beq_iff_eq] using ha
            exact fun hrt => (hids t (List.mem_cons_self t ts) hta) hrt.symm
        | error e => exact hmem

/-- C3 amended: only the client-side `blockTimeSlot` pathway exempts the
admin's placeholder rows — its cancellation loop skips every reservation with
`responsable = 'Admin'`, leaving such rows untouched (given distinct row ids);
the database trigger on `blocked_dates` applies no such exemption (see the
counterexample), and the rows the loop does cancel are those matching its
query filter, not exactly the overlapping active ones. -/
theorem C3_blockTimeSlot_spares_admin
    (db : DB) (date startT endT : Nat) (reason : String)
    (adminId : Option Nat) (auditOk : Bool) (r : Reservation)
    (hr : r ∈ db.reservations) (hadmin : r.responsable = "Admin")
    (hnodup : (db.reservations.map Reservation.id).Nodup) :
    r ∈ (blockCancelPhase db date startT endT reason adminId
        auditOk).reservations := by
  unfold blockCancelPhase
  refine blockCancel_foldl_preserves reason adminId auditOk r _ db hr ?_
  intro t ht hta
  have htmem : t ∈ db.reservations := List.mem_of_mem_filter ht
  intro hid
  have hinj := List.inj_on_of_nodup_map hnodup
  exact hta (by rw [hinj htmem hr hid, hadmin])

theorem C3_blockTimeSlot_spares_admin_witness :
    wAdmin ∈ (blockCancelPhase
      { reservations := [wAdmin, w1], cancellations := [], blockedDates := [] }
      1 480 720 "mantenimiento" (some 77) true).reservations := by
  exact C3_blockTimeSlot_spares_admin
    { reservations := [wAdmin, w1], cancellations := [], blockedDates := [] }
    1 480 720 "mantenimiento" (some 77) true wAdmin
    (by decide) rfl (by decide)

/-! ### C6: soft cancellation and the audit trail -/

/-- Fixture: an approved reservation that already carries admin notes. -/
def w6 : Reservation :=
  { mkRes 6 1 600 660 RStatus.approved with adminNotes := some "nota previa" }

/-- Fixture: a database holding only `w6`. -/
def db6 : DB := { reservations := [w6], cancellations := [], blockedDates := [] }

/-- C6 as stated is false on one conjunct: `deleteReservation` does not
*append* the reason to `admin_notes` — it overwrites them.  Cancelling a
reservation whose notes were `"nota previa"` leaves notes equal to
`"Motivo: mantenimiento"`, in which the prior notes no longer occur. -/
theorem C6_notes_overwritten_counterexample :
    w6.adminNotes = some "nota previa" ∧
    ((deleteReservation db6 (some 6) (some "mantenimiento") (some 77)
        true).toOption.map
      (fun db' => db'.reservations.map Reservation.adminNotes))
        = some [some "Motivo: mantenimiento"] ∧
    containsSubstr "Motivo: mantenimiento" "nota previa" = false := by
  decide

/-- The reservation-row update performed by `deleteReservation` (lines
570-580): status to `cancelled`, `admin_notes` replaced by the motivo note,
`updated_by` set only when an admin id is available. -/
def delUpd (rid : Nat) (reason : Option String) (adminId : Option Nat)
    (x : Reservation) : Reservation :=
  if x.id = rid then
    { x with
      status := RStatus.cancelled
      adminNotes := some (motivoNote reason)
      updatedBy := match adminId with
        | some a => some a
        | none => x.updatedBy }
  else x

/-- The audit row `deleteReservation` appends (lines 553-568). -/
def delAudit (rid : Nat) (reason : Option String) (adminId : Option Nat)
    (r : Reservation) : CancellationRow :=
  { reservationId := rid
    cancelledBy := adminId
    reason := auditReason reason
    previousStatus := r.status
    reservationSnapshot := r }

/-- Characterisation of `deleteReservation` when the row lookup succeeds. -/
theorem deleteReservation_ok
    (db : DB) (rid : Nat) (reason : Option String) (adminId : Option Nat)
    (auditOk : Bool) (r : Reservation)
    (hfind : db.reservations.find? (fun x => decide (x.id = rid)) = some r) :
    deleteReservation db (some rid) reason adminId auditOk = Except.ok
      { reservations := db.reservations.map (delUpd rid reason adminId)
        cancellations :=
          if auditOk then db.cancellations ++ [delAudit rid reason adminId r]
          else db.cancellations
        blockedDates := db.blockedDates } := by
  simp only [deleteReservation, hfind]
  rfl

/-- C6 amended: `deleteReservation` never deletes the row — it sets status to
`cancelled`, *replaces* `admin_notes` with `"Motivo: " + sanitized reason`
(discarding any prior notes), records the acting admin in `updated_by` when
available (leaving it unchanged otherwise), appends exactly one audit row
carrying the prior status and a full snapshot when the audit insert succeeds,
and — audit failure being isolated — still performs the identical cancellation
update when the audit insert fails. -/
theorem C6_soft_cancel_amended
    (db : DB) (rid : Nat) (reason : Option String) (adminId : Option Nat)
    (auditOk : Bool) (r : Reservation)
    (hfind : db.reservations.find? (fun x => decide (x.id = rid)) = some r) :
    ∃ db',
      deleteReservation db (some rid) reason adminId auditOk
          = Except.ok db' ∧
      db'.reservations.length = db.reservations.length ∧
      ({ r with
          status := RStatus.cancelled
          adminNotes := some (motivoNote reason)
          updatedBy := match adminId with
            | some a => some a
            | none => r.updatedBy } ∈ db'.reservations) ∧
      (∀ x ∈ db.reservations, x.id ≠ rid → x ∈ db'.reservations) ∧
      (auditOk = true → db'.cancellations = db.cancellations ++
        [{ reservationId := rid
           cancelledBy := adminId
           reason := auditReason reason
           previousStatus := r.status
           reservationSnapshot := r }]) ∧
      (auditOk = false → db'.cancellations = db.cancellations) ∧
      db'.reservations = db.reservations.map (delUpd rid reason adminId) := by
  have hid : r.id = rid := by
    have := List.find?_some hfind
    simpa using this
  have hmem : r ∈ db.reservations := List.mem_of_find?_eq_some hfind
  refine ⟨_, deleteReservation_ok db rid reason adminId auditOk r hfind,
    ?_, ?_, ?_, ?_, ?_, rfl⟩
  · simp
  · have := List.mem_map_of_mem (f := delUpd rid reason adminId) hmem
    simpa [delUpd, hid] using this
  · intro x hx hne
    have := List.mem_map_of_mem (f := delUpd rid reason adminId) hx
    simpa [delUpd, hne] using this
  · intro h
    simp [h, delAudit]
  · intro h
    simp [h]

theorem C6_soft_cancel_amended_witness :
    ∃ db',
      deleteReservation db6 (some 6) (some "mantenimiento") (some 77) false
          = Except.ok db' ∧
      db'.cancellations = [] ∧
      db'.reservations.length = 1 := by
  obtain ⟨db', h1, h2, _, _, _, h6, _⟩ :=
    C6_soft_cancel_amended db6 6 (some "mantenimiento") (some 77) false w6
      (by decide)
  exact ⟨db', h1, h6 rfl, h2⟩

/-! ### C7: cancelling an already-cancelled reservation -/

/-- Fixture: an already-cancelled reservation. -/
def w7 : Reservation := mkRes 7 1 600 660 RStatus.cancelled

/-- Fixture: the audit row written when `w7` was first cancelled. -/
def audit7 : CancellationRow :=
  { reservationId := 7
    cancelledBy := some 77
    reason := some "primera"
    previousStatus := RStatus.approved
    reservationSnapshot := mkRes 7 1 600 660 RStatus.approved }

/-- Fixture: a database in which `w7` is cancelled and audited once. -/
def db7 : DB :=
  { reservations := [w7], cancellations := [audit7], blockedDates := [] }

/-- C7 as stated is false: `deleteReservation` has no guard for
already-cancelled rows, so invoking it again on a cancelled reservation
appends a second audit row — the cancellation *is* double-audited. -/
theorem C7_double_audit_counterexample :
    w7.status = RStatus.cancelled ∧
    db7.cancellations.length = 1 ∧
    ((deleteReservation db7 (some 7) (some "otra vez") (some 77)
        true).toOption.map (fun db' => db'.cancellations.length)) = some 2 := by
  decide

/-- C7 amended: re-cancelling an already-cancelled reservation leaves its
status at `cancelled` (a no-op on the status) but re-runs the full pathway,
appending one more audit row whose recorded prior status is `cancelled` — the
operation is not idempotent on the audit log. -/
theorem C7_recancel_appends_audit
    (db : DB) (rid : Nat) (reason : Option String) (adminId : Option Nat)
    (r : Reservation)
    (hfind : db.reservations.find? (fun x => decide (x.id = rid)) = some r)
    (hst : r.status = RStatus.cancelled) :
    ∃ db',
      deleteReservation db (some rid) reason adminId true = Except.ok db' ∧
      db'.cancellations.length = db.cancellations.length + 1 ∧
      db'.cancellations.getLast?.map CancellationRow.previousStatus
          = some RStatus.cancelled ∧
      (∀ x ∈ db'.reservations, x.id = rid → x.status = RStatus.cancelled) := by
  refine ⟨_, deleteReservation_ok db rid reason adminId true r hfind,
    ?_, ?_, ?_⟩
  · simp
  · rw [if_pos rfl, ← List.concat_eq_append]
    simp [List.getLast?_concat, delAudit, hst]
  · intro x hx hxid
    obtain ⟨xa, hxa, rfl⟩ := List.mem_map.mp hx
    by_cases h : xa.id = rid
    · simp [delUpd, h]
    · simp only [delUpd, if_neg h] at hxid
      exact absurd hxid h

theorem C7_recancel_appends_audit_witness :
    ∃ db',
      deleteReservation db7 (some 7) (some "otra vez") (some 77) true
          = Except.ok db' ∧
      db'.cancellations.length = 2 := by
  obtain ⟨db', h1, h2, _, _⟩ :=
    C7_recancel_appends_audit db7 7 (some "otra vez") (some 77) w7
      (by decide) rfl
  exact ⟨db', h1, h2⟩

/-! ### C8: the email confirmation flow -/

/-- Fixture: an already-confirmed reservation whose token 42 expires at time
1000. -/
def w8 : Reservation :=
  { mkRes 8 1 600 660 RStatus.pending with
    confirmed := true
    confirmationToken := 42
    tokenExpiresAt := 1000 }

/-- C8 as stated is false: the confirmation flow never consumes the token, so
presenting an already-consumed (but unexpired) token reports success again
instead of the claimed 'invalid' outcome. -/
theorem C8_consumed_token_counterexample :
    w8.confirmed = true ∧
    (confirmReservation [w8] (some 42) 500).2 = ConfirmStatus.success ∧
    (confirmReservation [w8] (some 42) 500).2 ≠ ConfirmStatus.invalid := by
  decide

/-- C8 amended: the confirmation update is idempotent rather than once-only —
any presentation of a token held by an unexpired reservation (even one already
confirmed) sets its `confirmed` flag to `true`, changes nothing else (status
included), and reports success; a token all of whose rows are expired yields
the distinguishable 'expired' outcome with the table unchanged; an unknown or
missing token yields the 'invalid' outcome with the table unchanged; and
`token_expires_at` is stamped at creation as creation time plus 24 hours. -/
theorem C8_confirmation_flow_amended (table : List Reservation) (t now : Nat) :
    ((∃ r ∈ table, r.confirmationToken = t ∧ now < r.tokenExpiresAt) →
      (confirmReservation table (some t) now).2 = ConfirmStatus.success ∧
      (∀ x ∈ table,
        (x.confirmationToken = t ∧ now < x.tokenExpiresAt →
          { x with confirmed := true }
            ∈ (confirmReservation table (some t) now).1) ∧
        (¬(x.confirmationToken = t ∧ now < x.tokenExpiresAt) →
          x ∈ (confirmReservation table (some t) now).1))) ∧
    ((∃ r ∈ table, r.confirmationToken = t) →
      (∀ r ∈ table, r.confirmationToken = t → r.tokenExpiresAt ≤ now) →
      confirmReservation table (some t) now = (table, ConfirmStatus.expired)) ∧
    ((∀ r ∈ table, r.confirmationToken ≠ t) →
      confirmReservation table (some t) now = (table, ConfirmStatus.invalid)) ∧
    (confirmReservation table none now = (table, ConfirmStatus.invalid)) ∧
    (∀ n, tokenExpiry n = n + 24 * 60 * 60 * 1000) := by
  refine ⟨?_, ?_, ?_, rfl, fun n => rfl⟩
  · rintro ⟨r, hr, htok, hexp⟩
    have hrf : r ∈ table.filter (fun r =>
        decide (r.confirmationToken = t) && decide (now < r.tokenExpiresAt)) :=
      List.mem_filter.mpr ⟨hr, by simp [htok, hexp]⟩
    have hne : (table.filter (fun r =>
        decide (r.confirmationToken = t) &&
          decide (now < r.tokenExpiresAt))).isEmpty = false := by
      rcases hh : (table.filter (fun r =>
          decide (r.confirmationToken = t) &&
            decide (now < r.tokenExpiresAt))).isEmpty with _ | _
      · exact hh
      · rw [List.isEmpty_iff] at hh
        rw [hh] at hrf
        cases hrf
    refine ⟨by simp [confirmReservation, hne], ?_⟩
    intro x hx
    constructor
    · rintro ⟨hxt, hxe⟩
      have := List.mem_map_of_mem (f := fun r =>
        if decide (r.confirmationToken = t) && decide (now < r.tokenExpiresAt)
        then { r with confirmed := true } else r) hx
      simp only [confirmReservation, hne, Bool.false_eq_true, if_false]
      simpa [hxt, hxe] using this
    · intro hnx
      have := List.mem_map_of_mem (f := fun r =>
        if decide (r.confirmationToken = t) && decide (now < r.tokenExpiresAt)
        then { r with confirmed := true } else r) hx
      simp only [confirmReservation, hne, Bool.false_eq_true, if_false]
      have hcond : (decide (x.confirmationToken = t) &&
          decide (now < x.tokenExpiresAt)) = false := by
        rcases Decidable.em (x.confirmationToken = t) with h1 | h1
        · rcases Decidable.em (now < x.tokenExpiresAt) with h2 | h2
          · exact absurd ⟨h1, h2⟩ hnx
          · simp [h2]
        · simp [h1]
      simpa [hcond] using this
  · rintro ⟨r, hr, htok⟩ hall
    have hnil : table.filter (fun r =>
        decide (r.confirmationToken = t) &&
          decide (now < r.tokenExpiresAt)) = [] := by
      rw [List.filter_eq_nil_iff]
      intro x hx
      rcases Decidable.em (x.confirmationToken = t) with h1 | h1
      · have := hall x hx h1
        simp [h1, Nat.not_lt.mpr this]
      · simp [h1]
    have hany : table.any (fun r => decide (r.confirmationToken = t)) = true :=
      List.any_eq_true.mpr ⟨r, hr, by simp [htok]⟩
    simp [confirmReservation, hnil, hany]
  · intro hnone
    have hnil : table.filter (fun r =>
        decide (r.confirmationToken = t) &&
          decide (now < r.tokenExpiresAt)) = [] := by
      rw [List.filter_eq_nil_iff]
      intro x hx
      simp [hnone x hx]
    have hany : table.any (fun r => decide (r.confirmationToken = t))
        = false := by
      rcases hh : table.any (fun r => decide (r.confirmationToken = t)) with _ | _
      · rfl
      · obtain ⟨x, hx, hxt⟩ := List.any_eq_true.mp hh
        exact absurd (of_decide_eq_true hxt) (hnone x hx)
    simp [confirmReservation, hnil, hany]

theorem C8_confirmation_flow_amended_witness :
    (confirmReservation [w8] (some 42) 500).2 = ConfirmStatus.success ∧
    { w8 with confirmed := true } ∈ (confirmReservation [w8] (some 42) 500).1 ∧
    confirmReservation [w8] (some 42) 2000 = ([w8], ConfirmStatus.expired) ∧
    confirmReservation [w8] (some 43) 500 = ([w8], ConfirmStatus.invalid) := by
  have h1 := C8_confirmation_flow_amended [w8] 42 500
  have h2 := C8_confirmation_flow_amended [w8] 42 2000
  have h3 := C8_confirmation_flow_amended [w8] 43 500
  obtain ⟨hs, hmem⟩ := h1.1 ⟨w8, by decide, by decide, by decide⟩
  refine ⟨hs, ?_, ?_, ?_⟩
  · exact (hmem w8 (by decide)).1 ⟨rfl, by decide⟩
  · exact h2.2.1 ⟨w8, by decide, rfl⟩ (by decide)
  · exact h3.2.2.1 (by decide)

end Quincho
